import Mathlib

/-!
Verification of Signal-Desktop's legacy send-state migration
(`migrateLegacySendAttributes` and its helpers) against its specification.

The migration source converts legacy, untyped message fields (`recipients`,
`sent_to`, `delivered_to`, `read_by`, `sent`, `errors`) into the normalized
`sendStateByConversationId` map by folding derived update events through the
send-state reducer.

The reducer (`sendStateReducer`, `SendStatus`) and small utilities
(`isOutgoing`, `getOwn`, `zipObject`) live in modules that are only imported
by the migration source; those are modelled from the specification and marked
as such in their doc comments.
-/

namespace SignalSendState

/-! ## Definitions: the embedded data model and migration -/

inductive SendStatus where
  | Pending
  | Failed
  | Sent
  | Delivered
  | Read
deriving DecidableEq, Repr

def SendStatus.rank : SendStatus → Nat
  | .Pending => 0
  | .Failed => 1
  | .Sent => 2
  | .Delivered => 3
  | .Read => 4

structure SendState where
  status : SendStatus
  updatedAt : Option Nat
deriving DecidableEq, Repr

inductive SendActionType where
  | Failed
  | Sent
  | GotDeliveryReceipt
  | GotReadReceipt
deriving DecidableEq, Repr

def SendActionType.impliedStatus : SendActionType → SendStatus
  | .Failed => .Failed
  | .Sent => .Sent
  | .GotDeliveryReceipt => .Delivered
  | .GotReadReceipt => .Read

structure SendAction where
  type : SendActionType
  updatedAt : Option Nat

def sendStateReducer (state : SendState) (action : SendAction) : SendState :=
  let newStatus := action.type.impliedStatus
  if state.status.rank < newStatus.rank then
    { status := newStatus,
      updatedAt := action.updatedAt.orElse (fun _ => state.updatedAt) }
  else
    state

abbrev SendStateByConversationId := List (String × SendState)

def getOwn (m : SendStateByConversationId) (k : String) : Option SendState :=
  match m with
  | [] => none
  | (k₁, v₁) :: rest => if k₁ = k then some v₁ else getOwn rest k

def setKey (m : SendStateByConversationId) (k : String) (v : SendState) :
    SendStateByConversationId :=
  match m with
  | [] => [(k, v)]
  | (k₁, v₁) :: rest =>
      if k₁ = k then (k, v) :: rest else (k₁, v₁) :: setKey rest k v

inductive JSValue where
  | undef
  | null
  | bool (b : Bool)
  | num (n : Int)
  | str (s : String)
  | arr (xs : List JSValue)

def JSValue.truthy : JSValue → Bool
  | .undef => false
  | .null => false
  | .bool b => b
  | .num n => n ≠ 0
  | .str s => s ≠ ""
  | .arr _ => true

structure CustomError where
  identifier : Option String
  number : Option String

structure Conversation where
  id : String
deriving DecidableEq, Repr

abbrev GetConversationType := Option String → Option Conversation

structure MessageRecord where
  sendStateByConversationId : SendStateByConversationId
  type : String
  sent_at : Nat
  errors : Option (List CustomError)
  recipients : JSValue
  sent_to : JSValue
  delivered_to : JSValue
  read_by : JSValue
  sent : JSValue

def MessageRecord.legacyField (m : MessageRecord) (attributeName : String) :
    JSValue :=
  if attributeName = "recipients" then m.recipients
  else if attributeName = "sent_to" then m.sent_to
  else if attributeName = "delivered_to" then m.delivered_to
  else if attributeName = "read_by" then m.read_by
  else if attributeName = "sent" then m.sent
  else .undef

def isOutgoing (m : MessageRecord) : Bool :=
  m.type = "outgoing"

def idsOfValue (rawValue : JSValue) (getConversation : GetConversationType) :
    List String :=
  let value : List JSValue :=
    match rawValue with
    | .arr xs => xs
    | _ => []
  value.foldl
    (fun result identifier =>
      match identifier with
      | .str s =>
          match getConversation (some s) with
          | some conversation => result ++ [conversation.id]
          | none => result
      | _ => result)
    []

def getConversationIdsFromLegacyAttribute (message : MessageRecord)
    (attributeName : String) (getConversation : GetConversationType) :
    List String :=
  idsOfValue (message.legacyField attributeName) getConversation

def getConversationIdsFromErrors (errors : Option (List CustomError))
    (getConversation : GetConversationType) : List String :=
  (errors.getD []).foldl
    (fun result error =>
      match (getConversation error.identifier).orElse
          (fun _ => getConversation error.number) with
      | some conversation => result ++ [conversation.id]
      | none => result)
    []

def zipObjectRepeat (keys : List String) (v : SendState) :
    SendStateByConversationId :=
  keys.foldl (fun m k => setKey m k v) []

def migrationActions (message : MessageRecord)
    (getConversation : GetConversationType) (ourConversationId : String) :
    List (SendActionType × String) :=
  let wasSentToSelf := message.sent.truthy
  ((getConversationIdsFromErrors message.errors getConversation).map
      (fun conversationId => (SendActionType.Failed, conversationId)))
    ++ ((getConversationIdsFromLegacyAttribute message "sent_to"
          getConversation).map
        (fun conversationId => (SendActionType.Sent, conversationId)))
    ++ ((getConversationIdsFromLegacyAttribute message "delivered_to"
          getConversation).map
        (fun conversationId => (SendActionType.GotDeliveryReceipt,
          conversationId)))
    ++ ((getConversationIdsFromLegacyAttribute message "read_by"
          getConversation).map
        (fun conversationId => (SendActionType.GotReadReceipt,
          conversationId)))
    ++ [((if wasSentToSelf then SendActionType.Sent else SendActionType.Failed),
          ourConversationId)]

def migrateStep (pendingSendState : SendState)
    (m : SendStateByConversationId) (a : SendActionType × String) :
    SendStateByConversationId :=
  let oldSendState := (getOwn m a.2).getD pendingSendState
  setKey m a.2 (sendStateReducer oldSendState ⟨a.1, none⟩)

def migrateLegacySendAttributes (message : MessageRecord)
    (getConversation : GetConversationType) (ourConversationId : String) :
    Option SendStateByConversationId :=
  let shouldMigrate :=
    message.sendStateByConversationId.isEmpty && isOutgoing message
  if shouldMigrate then
    let pendingSendState : SendState :=
      { status := .Pending, updatedAt := some message.sent_at }
    let seeded :=
      zipObjectRepeat
        (getConversationIdsFromLegacyAttribute message "recipients"
          getConversation)
        pendingSendState
    some ((migrationActions message getConversation ourConversationId).foldl
      (migrateStep pendingSendState) seeded)
  else
    none

def maxStatus (a b : SendStatus) : SendStatus :=
  if a.rank < b.rank then b else a

def resolveIdentifier (getConversation : GetConversationType) :
    JSValue → Option String
  | .str s => (getConversation (some s)).map (fun conversation => conversation.id)
  | _ => none

def jsElements : JSValue → List JSValue
  | .arr xs => xs
  | _ => []

def resolveError (getConversation : GetConversationType)
    (error : CustomError) : Option String :=
  ((getConversation error.identifier).orElse
      (fun _ => getConversation error.number)).map
    (fun conversation => conversation.id)

def stateAt (pendingSendState : SendState) (m : SendStateByConversationId)
    (k : String) : SendState :=
  (getOwn m k).getD pendingSendState

def eventsFor (k : String) (acts : List (SendActionType × String)) :
    List SendActionType :=
  acts.filterMap (fun a => if a.2 = k then some a.1 else none)

def pendingFor (message : MessageRecord) : SendState :=
  { status := .Pending, updatedAt := some message.sent_at }

def normalizeLegacyListValue : JSValue → JSValue
  | .arr xs => .arr xs
  | _ => .arr []

def normalizeMessage (m : MessageRecord) : MessageRecord :=
  { m with
    recipients := normalizeLegacyListValue m.recipients,
    sent_to := normalizeLegacyListValue m.sent_to,
    delivered_to := normalizeLegacyListValue m.delivered_to,
    read_by := normalizeLegacyListValue m.read_by }

def setLegacyField (m : MessageRecord) (attributeName : String)
    (v : JSValue) : MessageRecord :=
  if attributeName = "recipients" then { m with recipients := v }
  else if attributeName = "sent_to" then { m with sent_to := v }
  else if attributeName = "delivered_to" then { m with delivered_to := v }
  else if attributeName = "read_by" then { m with read_by := v }
  else m

def testGetConversation : GetConversationType := fun identifier =>
  match identifier with
  | some "alice" => some ⟨"A"⟩
  | some "bob" => some ⟨"B"⟩
  | _ => none

def testMessage : MessageRecord where
  sendStateByConversationId := []
  type := "outgoing"
  sent_at := 100
  errors := some [⟨some "alice", none⟩]
  recipients := .arr [.str "alice"]
  sent_to := .arr [.str "alice"]
  delivered_to := .undef
  read_by := .undef
  sent := .bool false

def testResult : SendStateByConversationId :=
  [("A", ⟨.Sent, some 100⟩), ("ME", ⟨.Failed, some 100⟩)]

def testMessageEmpty : MessageRecord where
  sendStateByConversationId := []
  type := "outgoing"
  sent_at := 100
  errors := none
  recipients := .undef
  sent_to := .undef
  delivered_to := .undef
  read_by := .undef
  sent := .bool false

/-! ## Lemmas and claim theorems -/

lemma SendStatus.rank_injective : ∀ a b : SendStatus, a.rank = b.rank → a = b := by
  intro a b h
  cases a <;> cases b <;> first | rfl | simp [SendStatus.rank] at h

lemma sendStateReducer_status (s : SendState) (a : SendAction) :
    (sendStateReducer s a).status = maxStatus s.status a.type.impliedStatus := by
  simp only [sendStateReducer, maxStatus]
  split <;> rfl

lemma sendStateReducer_updatedAt_none (s : SendState) (t : SendActionType) :
    (sendStateReducer s ⟨t, none⟩).updatedAt = s.updatedAt := by
  simp only [sendStateReducer]
  split <;> rfl

lemma sendStateReducer_noop (s : SendState) (t : SendActionType)
    (h : t.impliedStatus.rank ≤ s.status.rank) :
    sendStateReducer s ⟨t, none⟩ = s := by
  simp only [sendStateReducer]
  rw [if_neg (by omega)]

lemma getOwn_setKey_self (m : SendStateByConversationId) (k : String)
    (v : SendState) : getOwn (setKey m k v) k = some v := by
  induction m with
  | nil => simp [setKey, getOwn]
  | cons p rest ih =>
      obtain ⟨k₁, v₁⟩ := p
      by_cases h : k₁ = k <;> simp [setKey, getOwn, h, ih]

lemma getOwn_setKey_ne (m : SendStateByConversationId) (k k' : String)
    (v : SendState) (h : k' ≠ k) :
    getOwn (setKey m k v) k' = getOwn m k' := by
  induction m with
  | nil => simp [setKey, getOwn, Ne.symm h]
  | cons p rest ih =>
      obtain ⟨k₁, v₁⟩ := p
      by_cases h₁ : k₁ = k
      · subst h₁
        simp [setKey, getOwn, Ne.symm h]
      · by_cases h₂ : k₁ = k' <;> simp [setKey, getOwn, h₁, h₂, h, ih]

lemma setKey_getOwn_eq (m : SendStateByConversationId) (k : String)
    (v : SendState) (h : getOwn m k = some v) : setKey m k v = m := by
  induction m with
  | nil => simp [getOwn] at h
  | cons p rest ih =>
      obtain ⟨k₁, v₁⟩ := p
      by_cases h₁ : k₁ = k
      · subst h₁
        simp [getOwn] at h
        simp [setKey, h]
      · simp [getOwn, h₁] at h
        simp [setKey, h₁, ih h]

lemma keys_setKey (m : SendStateByConversationId) (k : String)
    (v : SendState) :
    (setKey m k v).map Prod.fst =
      if k ∈ m.map Prod.fst then m.map Prod.fst
      else m.map Prod.fst ++ [k] := by
  induction m with
  | nil => simp [setKey]
  | cons p rest ih =>
      obtain ⟨k₁, v₁⟩ := p
      by_cases h₁ : k₁ = k
      · subst h₁
        simp [setKey]
      · by_cases h₂ : k ∈ rest.map Prod.fst <;>
          simp [setKey, h₁, Ne.symm h₁, h₂, ih]

lemma mem_keys_setKey (m : SendStateByConversationId) (k k' : String)
    (v : SendState) :
    k' ∈ (setKey m k v).map Prod.fst ↔
      k' = k ∨ k' ∈ m.map Prod.fst := by
  rw [keys_setKey]
  split
  · constructor
    · exact fun h => Or.inr h
    · rintro (rfl | h)
      · assumption
      · assumption
  · simp [or_comm]

lemma getOwn_eq_none_iff (m : SendStateByConversationId) (k : String) :
    getOwn m k = none ↔ k ∉ m.map Prod.fst := by
  induction m with
  | nil => simp [getOwn]
  | cons p rest ih =>
      obtain ⟨k₁, v₁⟩ := p
      by_cases h₁ : k₁ = k
      · subst h₁
        simp [getOwn]
      · simp [getOwn, h₁, Ne.symm h₁, ih]

lemma foldl_resolve_append (getConversation : GetConversationType)
    (xs : List JSValue) (acc : List String) :
    xs.foldl
      (fun result identifier =>
        match identifier with
        | .str s =>
            match getConversation (some s) with
            | some conversation => result ++ [conversation.id]
            | none => result
        | _ => result)
      acc
    = acc ++ xs.filterMap (resolveIdentifier getConversation) := by
  induction xs generalizing acc with
  | nil => simp
  | cons x rest ih =>
      cases x with
      | str s =>
          cases hgs : getConversation (some s) <;>
            simp [List.filterMap_cons, resolveIdentifier, hgs, ih]
      | undef => simp [List.filterMap_cons, resolveIdentifier, ih]
      | null => simp [List.filterMap_cons, resolveIdentifier, ih]
      | bool b => simp [List.filterMap_cons, resolveIdentifier, ih]
      | num n => simp [List.filterMap_cons, resolveIdentifier, ih]
      | arr ys => simp [List.filterMap_cons, resolveIdentifier, ih]

lemma idsOfValue_eq_filterMap (v : JSValue) (getConversation : GetConversationType) :
    idsOfValue v getConversation =
      (jsElements v).filterMap (resolveIdentifier getConversation) := by
  cases v <;>
    simp [idsOfValue, jsElements, foldl_resolve_append]

lemma getConversationIdsFromLegacyAttribute_eq (message : MessageRecord)
    (attributeName : String) (getConversation : GetConversationType) :
    getConversationIdsFromLegacyAttribute message attributeName getConversation =
      (jsElements (message.legacyField attributeName)).filterMap
        (resolveIdentifier getConversation) := by
  rw [getConversationIdsFromLegacyAttribute, idsOfValue_eq_filterMap]

lemma getConversationIdsFromErrors_eq (errors : Option (List CustomError))
    (getConversation : GetConversationType) :
    getConversationIdsFromErrors errors getConversation =
      (errors.getD []).filterMap (resolveError getConversation) := by
  rw [getConversationIdsFromErrors]
  generalize errors.getD [] = es
  suffices h : ∀ acc : List String,
      es.foldl
        (fun result error =>
          match (getConversation error.identifier).orElse
              (fun _ => getConversation error.number) with
          | some conversation => result ++ [conversation.id]
          | none => result)
        acc
      = acc ++ es.filterMap (resolveError getConversation) by
    simpa using h []
  induction es with
  | nil => simp
  | cons e rest ih =>
      intro acc
      cases hge : (getConversation e.identifier).orElse
          (fun _ => getConversation e.number) <;>
        simp [List.filterMap_cons, resolveError, hge, ih]

lemma stateAt_migrateStep_self (p : SendState) (m : SendStateByConversationId)
    (t : SendActionType) (c : String) :
    stateAt p (migrateStep p m (t, c)) c =
      sendStateReducer (stateAt p m c) ⟨t, none⟩ := by
  simp [stateAt, migrateStep, getOwn_setKey_self]

lemma stateAt_migrateStep_ne (p : SendState) (m : SendStateByConversationId)
    (a : SendActionType × String) (k : String) (h : k ≠ a.2) :
    stateAt p (migrateStep p m a) k = stateAt p m k := by
  simp [stateAt, migrateStep, getOwn_setKey_ne _ _ _ _ h]

lemma stateAt_foldl (p : SendState) (m : SendStateByConversationId)
    (acts : List (SendActionType × String)) (k : String) :
    stateAt p (acts.foldl (migrateStep p) m) k =
      (eventsFor k acts).foldl
        (fun s t => sendStateReducer s ⟨t, none⟩) (stateAt p m k) := by
  induction acts generalizing m with
  | nil => rfl
  | cons a rest ih =>
      obtain ⟨t, c⟩ := a
      rw [List.foldl_cons, ih]
      by_cases h : c = k
      · subst h
        rw [stateAt_migrateStep_self]
        simp [eventsFor, List.filterMap_cons]
      · rw [stateAt_migrateStep_ne p m (t, c) k (fun hk => h hk.symm)]
        simp [eventsFor, List.filterMap_cons, h]

lemma foldl_reducer_status (init : SendState) (ts : List SendActionType) :
    (ts.foldl (fun s t => sendStateReducer s ⟨t, none⟩) init).status =
      (ts.map SendActionType.impliedStatus).foldl maxStatus init.status := by
  induction ts generalizing init with
  | nil => rfl
  | cons t rest ih =>
      simp [List.foldl_cons, ih, sendStateReducer_status]

lemma foldl_reducer_updatedAt (init : SendState) (ts : List SendActionType) :
    (ts.foldl (fun s t => sendStateReducer s ⟨t, none⟩) init).updatedAt =
      init.updatedAt := by
  induction ts generalizing init with
  | nil => rfl
  | cons t rest ih =>
      simp [List.foldl_cons, ih, sendStateReducer_updatedAt_none]

lemma rank_maxStatus_left (a b : SendStatus) :
    a.rank ≤ (maxStatus a b).rank := by
  unfold maxStatus
  split <;> omega

lemma rank_maxStatus_right (a b : SendStatus) :
    b.rank ≤ (maxStatus a b).rank := by
  unfold maxStatus
  split <;> omega

lemma rank_maxStatus_ub (a b c : SendStatus) (ha : a.rank ≤ c.rank)
    (hb : b.rank ≤ c.rank) : (maxStatus a b).rank ≤ c.rank := by
  unfold maxStatus
  split <;> assumption

lemma le_foldl_maxStatus_init (l : List SendStatus) (init : SendStatus) :
    init.rank ≤ (l.foldl maxStatus init).rank := by
  induction l generalizing init with
  | nil => exact Nat.le_refl _
  | cons x rest ih =>
      exact Nat.le_trans (rank_maxStatus_left init x) (ih (maxStatus init x))

lemma le_foldl_maxStatus_mem (l : List SendStatus) (init x : SendStatus)
    (hx : x ∈ l) : x.rank ≤ (l.foldl maxStatus init).rank := by
  induction l generalizing init with
  | nil => cases hx
  | cons a rest ih =>
      rcases List.mem_cons.mp hx with rfl | hx₁
      · exact Nat.le_trans (rank_maxStatus_right init x)
          (le_foldl_maxStatus_init rest (maxStatus init x))
      · exact ih (maxStatus init a) hx₁

lemma foldl_maxStatus_ub (l : List SendStatus) (init b : SendStatus)
    (hinit : init.rank ≤ b.rank) (hl : ∀ x ∈ l, x.rank ≤ b.rank) :
    (l.foldl maxStatus init).rank ≤ b.rank := by
  induction l generalizing init with
  | nil => exact hinit
  | cons a rest ih =>
      exact ih (maxStatus init a)
        (rank_maxStatus_ub init a b hinit (hl a (List.mem_cons_self a rest)))
        (fun x hx => hl x (List.mem_cons_of_mem a hx))

lemma foldl_maxStatus_eq (l : List SendStatus) (init b : SendStatus)
    (hb : b ∈ l) (hinit : init.rank ≤ b.rank)
    (hl : ∀ x ∈ l, x.rank ≤ b.rank) :
    l.foldl maxStatus init = b :=
  SendStatus.rank_injective _ _
    (Nat.le_antisymm (foldl_maxStatus_ub l init b hinit hl)
      (le_foldl_maxStatus_mem l init b hb))

lemma mem_keys_foldl_migrateStep (p : SendState)
    (m : SendStateByConversationId) (acts : List (SendActionType × String))
    (k : String) :
    k ∈ (acts.foldl (migrateStep p) m).map Prod.fst ↔
      k ∈ m.map Prod.fst ∨ k ∈ acts.map Prod.snd := by
  induction acts generalizing m with
  | nil => simp
  | cons a rest ih =>
      rw [List.foldl_cons, ih]
      simp only [migrateStep, mem_keys_setKey, List.map_cons, List.mem_cons]
      tauto

lemma getOwn_zipFoldAux (v : SendState) (ks : List String)
    (m : SendStateByConversationId) (k : String) :
    getOwn (ks.foldl (fun m₁ k₁ => setKey m₁ k₁ v) m) k =
      if k ∈ ks then some v else getOwn m k := by
  induction ks generalizing m with
  | nil => simp
  | cons a rest ih =>
      rw [List.foldl_cons, ih]
      by_cases h : k ∈ rest
      · simp [h]
      · by_cases h₂ : k = a
        · subst h₂
          simp [h, getOwn_setKey_self]
        · simp [h, h₂, getOwn_setKey_ne _ _ _ _ h₂]

lemma getOwn_zipObjectRepeat (ks : List String) (v : SendState) (k : String) :
    getOwn (zipObjectRepeat ks v) k = if k ∈ ks then some v else none := by
  rw [zipObjectRepeat, getOwn_zipFoldAux]
  split <;> simp [getOwn]

lemma mem_keys_zipObjectRepeat (ks : List String) (v : SendState)
    (k : String) :
    k ∈ (zipObjectRepeat ks v).map Prod.fst ↔ k ∈ ks := by
  have h := getOwn_eq_none_iff (zipObjectRepeat ks v) k
  rw [getOwn_zipObjectRepeat] at h
  by_cases hk : k ∈ ks
  · rw [if_pos hk] at h
    have h₂ : ¬ k ∉ (zipObjectRepeat ks v).map Prod.fst :=
      fun hn => Option.some_ne_none v (h.mpr hn)
    simp [hk, not_not.mp h₂]
  · rw [if_neg hk] at h
    simp [hk, h.mp rfl]

lemma stateAt_zipObjectRepeat (ks : List String) (v : SendState)
    (k : String) : stateAt v (zipObjectRepeat ks v) k = v := by
  rw [stateAt, getOwn_zipObjectRepeat]
  split <;> rfl

lemma migrate_eq_some (message : MessageRecord)
    (getConversation : GetConversationType) (ourConversationId : String)
    (m : SendStateByConversationId)
    (h : migrateLegacySendAttributes message getConversation ourConversationId
        = some m) :
    m = (migrationActions message getConversation ourConversationId).foldl
          (migrateStep (pendingFor message))
          (zipObjectRepeat
            (getConversationIdsFromLegacyAttribute message "recipients"
              getConversation)
            (pendingFor message)) := by
  simp only [migrateLegacySendAttributes] at h
  split at h
  · exact (Option.some_inj.mp h).symm
  · exact absurd h (by simp)

lemma migrationActions_snd (message : MessageRecord)
    (getConversation : GetConversationType) (ourConversationId : String) :
    (migrationActions message getConversation ourConversationId).map Prod.snd =
      getConversationIdsFromErrors message.errors getConversation
        ++ getConversationIdsFromLegacyAttribute message "sent_to"
            getConversation
        ++ getConversationIdsFromLegacyAttribute message "delivered_to"
            getConversation
        ++ getConversationIdsFromLegacyAttribute message "read_by"
            getConversation
        ++ [ourConversationId] := by
  simp [migrationActions, List.map_map, Function.comp_def]

lemma eventsFor_append (k : String)
    (acts₁ acts₂ : List (SendActionType × String)) :
    eventsFor k (acts₁ ++ acts₂) = eventsFor k acts₁ ++ eventsFor k acts₂ := by
  simp [eventsFor, List.filterMap_append]

lemma mem_eventsFor_map_const (k : String) (t t' : SendActionType)
    (l : List String) :
    t' ∈ eventsFor k (l.map (fun c => (t, c))) ↔ t' = t ∧ k ∈ l := by
  simp only [eventsFor, List.mem_filterMap, List.mem_map]
  constructor
  · rintro ⟨a, ⟨c, hc, rfl⟩, hif⟩
    by_cases h : c = k
    · rw [if_pos h] at hif
      exact ⟨(Option.some_inj.mp hif).symm, h ▸ hc⟩
    · rw [if_neg h] at hif
      cases hif
  · rintro ⟨rfl, hk⟩
    exact ⟨(t', k), ⟨k, hk, rfl⟩, by simp⟩

lemma eventsFor_singleton (k c : String) (t : SendActionType) :
    eventsFor k [(t, c)] = if c = k then [t] else [] := by
  by_cases h : c = k <;> simp [eventsFor, h]

lemma mem_eventsFor_migrationActions (message : MessageRecord)
    (getConversation : GetConversationType) (ourConversationId : String)
    (c : String) (t : SendActionType) :
    t ∈ eventsFor c
        (migrationActions message getConversation ourConversationId) ↔
      (t = .Failed ∧
        c ∈ getConversationIdsFromErrors message.errors getConversation)
      ∨ (t = .Sent ∧
        c ∈ getConversationIdsFromLegacyAttribute message "sent_to"
          getConversation)
      ∨ (t = .GotDeliveryReceipt ∧
        c ∈ getConversationIdsFromLegacyAttribute message "delivered_to"
          getConversation)
      ∨ (t = .GotReadReceipt ∧
        c ∈ getConversationIdsFromLegacyAttribute message "read_by"
          getConversation)
      ∨ (ourConversationId = c ∧
        t = (if message.sent.truthy then .Sent else .Failed)) := by
  rw [migrationActions]
  rw [eventsFor_append, eventsFor_append, eventsFor_append, eventsFor_append]
  simp only [List.mem_append, mem_eventsFor_map_const, eventsFor_singleton]
  by_cases h : ourConversationId = c <;> simp [h] <;> tauto

lemma migrate_status_char (message : MessageRecord)
    (getConversation : GetConversationType) (ourConversationId : String)
    (m : SendStateByConversationId)
    (h : migrateLegacySendAttributes message getConversation ourConversationId
        = some m) (k : String) :
    (stateAt (pendingFor message) m k).status =
      ((eventsFor k
            (migrationActions message getConversation ourConversationId)).map
          SendActionType.impliedStatus).foldl
        maxStatus SendStatus.Pending := by
  rw [migrate_eq_some message getConversation ourConversationId m h,
    stateAt_foldl, foldl_reducer_status, stateAt_zipObjectRepeat]
  rfl

lemma migrate_updatedAt_char (message : MessageRecord)
    (getConversation : GetConversationType) (ourConversationId : String)
    (m : SendStateByConversationId)
    (h : migrateLegacySendAttributes message getConversation ourConversationId
        = some m) (k : String) :
    (stateAt (pendingFor message) m k).updatedAt = some message.sent_at := by
  rw [migrate_eq_some message getConversation ourConversationId m h,
    stateAt_foldl, foldl_reducer_updatedAt, stateAt_zipObjectRepeat]
  rfl

lemma nodup_keys_setKey (m : SendStateByConversationId) (k : String)
    (v : SendState) (h : (m.map Prod.fst).Nodup) :
    ((setKey m k v).map Prod.fst).Nodup := by
  rw [keys_setKey]
  split
  · exact h
  · rename_i hk
    rw [List.nodup_append]
    refine ⟨h, List.nodup_singleton k, ?_⟩
    intro a ha hb
    rw [List.mem_singleton] at hb
    exact hk (hb ▸ ha)

lemma nodup_keys_foldl_migrateStep (p : SendState)
    (m : SendStateByConversationId) (acts : List (SendActionType × String))
    (h : (m.map Prod.fst).Nodup) :
    (((acts.foldl (migrateStep p) m)).map Prod.fst).Nodup := by
  induction acts generalizing m with
  | nil => exact h
  | cons a rest ih =>
      exact ih (setKey m a.2 _) (nodup_keys_setKey m a.2 _ h)

lemma nodup_keys_zipFoldAux (v : SendState) (ks : List String)
    (m : SendStateByConversationId) (h : (m.map Prod.fst).Nodup) :
    (((ks.foldl (fun m₁ k₁ => setKey m₁ k₁ v) m)).map Prod.fst).Nodup := by
  induction ks generalizing m with
  | nil => exact h
  | cons a rest ih =>
      exact ih (setKey m a v) (nodup_keys_setKey m a v h)

lemma nodup_keys_zipObjectRepeat (ks : List String) (v : SendState) :
    ((zipObjectRepeat ks v).map Prod.fst).Nodup :=
  nodup_keys_zipFoldAux v ks [] (by simp)

lemma migrate_mem_keys (message : MessageRecord)
    (getConversation : GetConversationType) (ourConversationId : String)
    (m : SendStateByConversationId)
    (h : migrateLegacySendAttributes message getConversation ourConversationId
        = some m) (k : String) :
    k ∈ m.map Prod.fst ↔
      k ∈ getConversationIdsFromLegacyAttribute message "recipients"
          getConversation
      ∨ k ∈ getConversationIdsFromErrors message.errors getConversation
      ∨ k ∈ getConversationIdsFromLegacyAttribute message "sent_to"
          getConversation
      ∨ k ∈ getConversationIdsFromLegacyAttribute message "delivered_to"
          getConversation
      ∨ k ∈ getConversationIdsFromLegacyAttribute message "read_by"
          getConversation
      ∨ k = ourConversationId := by
  rw [migrate_eq_some message getConversation ourConversationId m h,
    mem_keys_foldl_migrateStep, mem_keys_zipObjectRepeat,
    migrationActions_snd]
  simp only [List.mem_append, List.mem_singleton]
  tauto

theorem migrate_keys_union (message : MessageRecord)
    (getConversation : GetConversationType) (ourConversationId : String)
    (m : SendStateByConversationId)
    (h : migrateLegacySendAttributes message getConversation ourConversationId
        = some m) (k : String) :
    k ∈ m.map Prod.fst ↔
      k ∈ getConversationIdsFromLegacyAttribute message "recipients"
          getConversation
      ∨ k ∈ getConversationIdsFromErrors message.errors getConversation
      ∨ k ∈ getConversationIdsFromLegacyAttribute message "sent_to"
          getConversation
      ∨ k ∈ getConversationIdsFromLegacyAttribute message "delivered_to"
          getConversation
      ∨ k ∈ getConversationIdsFromLegacyAttribute message "read_by"
          getConversation
      ∨ k = ourConversationId :=
  migrate_mem_keys message getConversation ourConversationId m h k

theorem migrate_error_superseded_by_sent (message : MessageRecord)
    (getConversation : GetConversationType) (ourConversationId : String)
    (m : SendStateByConversationId) (c : String)
    (h : migrateLegacySendAttributes message getConversation ourConversationId
        = some m)
    (herr : c ∈ getConversationIdsFromErrors message.errors getConversation)
    (hsent : c ∈ getConversationIdsFromLegacyAttribute message "sent_to"
        getConversation)
    (hdel : c ∉ getConversationIdsFromLegacyAttribute message "delivered_to"
        getConversation)
    (hread : c ∉ getConversationIdsFromLegacyAttribute message "read_by"
        getConversation)
    (hour : c ≠ ourConversationId) :
    ∃ s, getOwn m c = some s ∧ s.status = SendStatus.Sent := by
  have hkey : c ∈ m.map Prod.fst :=
    (migrate_mem_keys message getConversation ourConversationId m h c).mpr
      (Or.inr (Or.inr (Or.inl hsent)))
  cases hs : getOwn m c with
  | none => exact absurd hkey ((getOwn_eq_none_iff m c).mp hs)
  | some s =>
      refine ⟨s, rfl, ?_⟩
      have hchar := migrate_status_char message getConversation
        ourConversationId m h c
      rw [stateAt, hs, Option.getD_some] at hchar
      rw [hchar]
      apply foldl_maxStatus_eq
      · rw [List.mem_map]
        refine ⟨SendActionType.Sent, ?_, rfl⟩
        rw [mem_eventsFor_migrationActions]
        exact Or.inr (Or.inl ⟨rfl, hsent⟩)
      · simp [SendStatus.rank]
      · intro x hx
        rw [List.mem_map] at hx
        obtain ⟨t, ht, rfl⟩ := hx
        rw [mem_eventsFor_migrationActions] at ht
        rcases ht with ⟨rfl, _⟩ | ⟨rfl, _⟩ | ⟨_, hmem⟩ | ⟨_, hmem⟩ | ⟨heq, _⟩
        · simp [SendActionType.impliedStatus, SendStatus.rank]
        · simp [SendActionType.impliedStatus, SendStatus.rank]
        · exact absurd hmem hdel
        · exact absurd hmem hread
        · exact absurd heq.symm hour

theorem migrate_self_event_definite (message : MessageRecord)
    (getConversation : GetConversationType) (ourConversationId : String)
    (m : SendStateByConversationId)
    (h : migrateLegacySendAttributes message getConversation ourConversationId
        = some m) :
    (∃ s, getOwn m ourConversationId = some s) ∧
      ((getConversationIdsFromLegacyAttribute message "recipients"
            getConversation = [] ∧
        getConversationIdsFromErrors message.errors getConversation = [] ∧
        getConversationIdsFromLegacyAttribute message "sent_to"
            getConversation = [] ∧
        getConversationIdsFromLegacyAttribute message "delivered_to"
            getConversation = [] ∧
        getConversationIdsFromLegacyAttribute message "read_by"
            getConversation = []) →
        m = [(ourConversationId,
          ⟨if message.sent.truthy then .Sent else .Failed,
            some message.sent_at⟩)]) := by
  constructor
  · have hkey : ourConversationId ∈ m.map Prod.fst :=
      (migrate_mem_keys message getConversation ourConversationId m h
        ourConversationId).mpr (by tauto)
    cases hs : getOwn m ourConversationId with
    | none => exact absurd hkey ((getOwn_eq_none_iff m ourConversationId).mp hs)
    | some s => exact ⟨s, rfl⟩
  · rintro ⟨hrec, herr, hsent, hdel, hread⟩
    rw [migrate_eq_some message getConversation ourConversationId m h,
      migrationActions, hrec, herr, hsent, hdel, hread]
    by_cases hself : message.sent.truthy <;>
      simp [hself, zipObjectRepeat, migrateStep, getOwn, setKey,
        sendStateReducer, pendingFor, SendActionType.impliedStatus,
        SendStatus.rank, Option.orElse]

theorem migrate_entries_updatedAt (message : MessageRecord)
    (getConversation : GetConversationType) (ourConversationId : String)
    (m : SendStateByConversationId)
    (h : migrateLegacySendAttributes message getConversation ourConversationId
        = some m) (k : String) (s : SendState) (hs : getOwn m k = some s) :
    s.updatedAt = some message.sent_at := by
  have h₁ := migrate_updatedAt_char message getConversation ourConversationId
    m h k
  rw [stateAt, hs, Option.getD_some] at h₁
  exact h₁

theorem migrate_keys_nodup_status_max (message : MessageRecord)
    (getConversation : GetConversationType) (ourConversationId : String)
    (m : SendStateByConversationId) (k : String)
    (h : migrateLegacySendAttributes message getConversation ourConversationId
        = some m) :
    (m.map Prod.fst).Nodup ∧
      (stateAt (pendingFor message) m k).status =
        ((eventsFor k
              (migrationActions message getConversation ourConversationId)).map
            SendActionType.impliedStatus).foldl
          maxStatus SendStatus.Pending := by
  refine ⟨?_, migrate_status_char message getConversation ourConversationId
    m h k⟩
  rw [migrate_eq_some message getConversation ourConversationId m h]
  exact nodup_keys_foldl_migrateStep _ _ _
    (nodup_keys_zipObjectRepeat _ _)

theorem migrate_no_migration_guard (message : MessageRecord)
    (getConversation : GetConversationType) (ourConversationId : String) :
    migrateLegacySendAttributes message getConversation ourConversationId = none ↔
      ¬ message.sendStateByConversationId.isEmpty ∨ ¬ isOutgoing message := by
  simp only [migrateLegacySendAttributes]
  by_cases h₁ : message.sendStateByConversationId.isEmpty <;>
    by_cases h₂ : isOutgoing message <;>
    simp [h₁, h₂]

theorem sendStateReducer_monotone (s : SendState) (a : SendAction) :
    s.status.rank ≤ (sendStateReducer s a).status.rank := by
  rw [sendStateReducer_status, maxStatus]
  split
  · exact Nat.le_of_lt (by assumption)
  · exact Nat.le_refl _

theorem getConversationIdsFromErrors_spec (errors : Option (List CustomError))
    (getConversation : GetConversationType) :
    getConversationIdsFromErrors errors getConversation =
      (errors.getD []).filterMap
        (fun error =>
          match getConversation error.identifier with
          | some conversation => some conversation.id
          | none =>
              (getConversation error.number).map
                (fun conversation => conversation.id)) := by
  rw [getConversationIdsFromErrors_eq]
  apply List.filterMap_congr
  intro e _
  cases hid : getConversation e.identifier <;>
    simp [resolveError, hid, Option.orElse]

lemma idsOfValue_normalize (v : JSValue) (getConversation : GetConversationType) :
    idsOfValue (normalizeLegacyListValue v) getConversation =
      idsOfValue v getConversation := by
  cases v <;> rfl

lemma ids_normalizeMessage (m : MessageRecord) (name : String)
    (getConversation : GetConversationType) :
    getConversationIdsFromLegacyAttribute (normalizeMessage m) name
        getConversation =
      getConversationIdsFromLegacyAttribute m name getConversation := by
  by_cases h₁ : name = "recipients"
  · subst h₁
    exact idsOfValue_normalize m.recipients getConversation
  · by_cases h₂ : name = "sent_to"
    · subst h₂
      exact idsOfValue_normalize m.sent_to getConversation
    · by_cases h₃ : name = "delivered_to"
      · subst h₃
        exact idsOfValue_normalize m.delivered_to getConversation
      · by_cases h₄ : name = "read_by"
        · subst h₄
          exact idsOfValue_normalize m.read_by getConversation
        · by_cases h₅ : name = "sent" <;>
            simp [getConversationIdsFromLegacyAttribute,
              MessageRecord.legacyField, normalizeMessage, h₁, h₂, h₃, h₄, h₅]

lemma migrationActions_normalizeMessage (m : MessageRecord)
    (getConversation : GetConversationType) (ourConversationId : String) :
    migrationActions (normalizeMessage m) getConversation ourConversationId =
      migrationActions m getConversation ourConversationId := by
  simp only [migrationActions, ids_normalizeMessage]
  rfl

theorem migrate_malformed_fields (message : MessageRecord)
    (getConversation : GetConversationType) (ourConversationId : String)
    (v : JSValue) (hv : ∀ xs, v ≠ JSValue.arr xs) :
    idsOfValue v getConversation = [] ∧
      migrateLegacySendAttributes (normalizeMessage message) getConversation
          ourConversationId =
        migrateLegacySendAttributes message getConversation
          ourConversationId := by
  constructor
  · cases v <;> first | rfl | exact absurd rfl (hv _)
  · simp only [migrateLegacySendAttributes,
      migrationActions_normalizeMessage, ids_normalizeMessage]
    rfl

lemma foldl_migrateStep_insert_noop (p : SendState)
    (m : SendStateByConversationId)
    (pre post : List (SendActionType × String)) (t : SendActionType)
    (c : String) (hmem : (t, c) ∈ pre) :
    (pre ++ (t, c) :: post).foldl (migrateStep p) m =
      (pre ++ post).foldl (migrateStep p) m := by
  rw [List.foldl_append, List.foldl_append, List.foldl_cons]
  have hkey : c ∈ (pre.foldl (migrateStep p) m).map Prod.fst := by
    rw [mem_keys_foldl_migrateStep]
    exact Or.inr (List.mem_map.mpr ⟨(t, c), hmem, rfl⟩)
  cases hs : getOwn (pre.foldl (migrateStep p) m) c with
  | none => exact absurd hkey ((getOwn_eq_none_iff _ c).mp hs)
  | some s =>
      have hrank : t.impliedStatus.rank ≤ s.status.rank := by
        have hstat := stateAt_foldl p m pre c
        rw [stateAt, hs, Option.getD_some] at hstat
        have h₂ := congrArg SendState.status hstat
        rw [foldl_reducer_status] at h₂
        rw [h₂]
        apply le_foldl_maxStatus_mem
        rw [List.mem_map]
        refine ⟨t, ?_, rfl⟩
        rw [eventsFor, List.mem_filterMap]
        exact ⟨(t, c), hmem, by simp⟩
      have hstep : migrateStep p (pre.foldl (migrateStep p) m) (t, c) =
          pre.foldl (migrateStep p) m := by
        rw [migrateStep]
        simp only [hs, Option.getD_some]
        rw [sendStateReducer_noop s t hrank]
        exact setKey_getOwn_eq _ c s hs
      rw [hstep]

lemma idsOfValue_arr_append_none (l : List JSValue) (x : JSValue)
    (getConversation : GetConversationType)
    (hres : resolveIdentifier getConversation x = none) :
    idsOfValue (.arr (l ++ [x])) getConversation =
      idsOfValue (.arr l) getConversation := by
  rw [idsOfValue_eq_filterMap, idsOfValue_eq_filterMap, jsElements,
    jsElements, List.filterMap_append]
  simp [List.filterMap_cons, hres]

lemma idsOfValue_arr_append_some (l : List JSValue) (x : JSValue) (c : String)
    (getConversation : GetConversationType)
    (hres : resolveIdentifier getConversation x = some c) :
    idsOfValue (.arr (l ++ [x])) getConversation =
      idsOfValue (.arr l) getConversation ++ [c] := by
  rw [idsOfValue_eq_filterMap, idsOfValue_eq_filterMap, jsElements,
    jsElements, List.filterMap_append]
  simp [List.filterMap_cons, hres]

lemma mem_ids_of_mem (l : List JSValue) (x : JSValue) (c : String)
    (getConversation : GetConversationType) (hx : x ∈ l)
    (hres : resolveIdentifier getConversation x = some c) :
    c ∈ idsOfValue (.arr l) getConversation := by
  rw [idsOfValue_eq_filterMap, jsElements]
  exact List.mem_filterMap.mpr ⟨x, hx, hres⟩

lemma migrate_unfold (message : MessageRecord)
    (getConversation : GetConversationType) (ourConversationId : String) :
    migrateLegacySendAttributes message getConversation ourConversationId =
      if message.sendStateByConversationId.isEmpty && isOutgoing message then
        some ((migrationActions message getConversation ourConversationId).foldl
          (migrateStep (pendingFor message))
          (zipObjectRepeat
            (getConversationIdsFromLegacyAttribute message "recipients"
              getConversation)
            (pendingFor message)))
      else none := rfl

lemma migrate_eq_of_components (m₁ m₂ : MessageRecord)
    (getConversation : GetConversationType) (ourConversationId : String)
    (hguard : (m₁.sendStateByConversationId.isEmpty && isOutgoing m₁) =
      (m₂.sendStateByConversationId.isEmpty && isOutgoing m₂))
    (hfold : (migrationActions m₁ getConversation ourConversationId).foldl
        (migrateStep (pendingFor m₁))
        (zipObjectRepeat
          (getConversationIdsFromLegacyAttribute m₁ "recipients"
            getConversation)
          (pendingFor m₁)) =
      (migrationActions m₂ getConversation ourConversationId).foldl
        (migrateStep (pendingFor m₂))
        (zipObjectRepeat
          (getConversationIdsFromLegacyAttribute m₂ "recipients"
            getConversation)
          (pendingFor m₂))) :
    migrateLegacySendAttributes m₁ getConversation ourConversationId =
      migrateLegacySendAttributes m₂ getConversation ourConversationId := by
  rw [migrate_unfold, migrate_unfold, hguard]
  by_cases hc : (m₂.sendStateByConversationId.isEmpty && isOutgoing m₂) = true
  · rw [if_pos hc, if_pos hc, hfold]
  · rw [if_neg hc, if_neg hc]

lemma foldl_five_dup₂ (p : SendState) (seed : SendStateByConversationId)
    (E S D R F : List (SendActionType × String)) (t : SendActionType)
    (c : String) (hmem : (t, c) ∈ S) :
    (E ++ (S ++ [(t, c)]) ++ D ++ R ++ F).foldl (migrateStep p) seed =
      (E ++ S ++ D ++ R ++ F).foldl (migrateStep p) seed := by
  have h₁ : E ++ (S ++ [(t, c)]) ++ D ++ R ++ F =
      (E ++ S) ++ (t, c) :: (D ++ R ++ F) := by simp
  have h₂ : E ++ S ++ D ++ R ++ F = (E ++ S) ++ (D ++ R ++ F) := by simp
  rw [h₁, h₂, foldl_migrateStep_insert_noop]
  exact List.mem_append_right E hmem

lemma foldl_five_dup₃ (p : SendState) (seed : SendStateByConversationId)
    (E S D R F : List (SendActionType × String)) (t : SendActionType)
    (c : String) (hmem : (t, c) ∈ D) :
    (E ++ S ++ (D ++ [(t, c)]) ++ R ++ F).foldl (migrateStep p) seed =
      (E ++ S ++ D ++ R ++ F).foldl (migrateStep p) seed := by
  have h₁ : E ++ S ++ (D ++ [(t, c)]) ++ R ++ F =
      (E ++ S ++ D) ++ (t, c) :: (R ++ F) := by simp
  have h₂ : E ++ S ++ D ++ R ++ F = (E ++ S ++ D) ++ (R ++ F) := by simp
  rw [h₁, h₂, foldl_migrateStep_insert_noop]
  exact List.mem_append_right (E ++ S) hmem

lemma foldl_five_dup₄ (p : SendState) (seed : SendStateByConversationId)
    (E S D R F : List (SendActionType × String)) (t : SendActionType)
    (c : String) (hmem : (t, c) ∈ R) :
    (E ++ S ++ D ++ (R ++ [(t, c)]) ++ F).foldl (migrateStep p) seed =
      (E ++ S ++ D ++ R ++ F).foldl (migrateStep p) seed := by
  have h₁ : E ++ S ++ D ++ (R ++ [(t, c)]) ++ F =
      (E ++ S ++ D ++ R) ++ (t, c) :: F := by simp
  have h₂ : E ++ S ++ D ++ R ++ F = (E ++ S ++ D ++ R) ++ F := by simp
  rw [h₁, h₂, foldl_migrateStep_insert_noop]
  exact List.mem_append_right (E ++ S ++ D) hmem

lemma zipObjectRepeat_append_dup (ks : List String) (c : String)
    (v : SendState) (hc : c ∈ ks) :
    zipObjectRepeat (ks ++ [c]) v = zipObjectRepeat ks v := by
  have h := getOwn_zipObjectRepeat ks v c
  rw [if_pos hc] at h
  have h₂ : zipObjectRepeat (ks ++ [c]) v =
      setKey (zipObjectRepeat ks v) c v := by
    rw [zipObjectRepeat, zipObjectRepeat, List.foldl_append]
    rfl
  rw [h₂]
  exact setKey_getOwn_eq _ c v h

theorem migrate_duplicate_identifier_noop (message : MessageRecord)
    (getConversation : GetConversationType) (ourConversationId : String)
    (name : String) (l : List JSValue) (x : JSValue)
    (hname : name = "recipients" ∨ name = "sent_to" ∨
      name = "delivered_to" ∨ name = "read_by")
    (hx : x ∈ l) :
    migrateLegacySendAttributes
        (setLegacyField message name (.arr (l ++ [x]))) getConversation
        ourConversationId =
      migrateLegacySendAttributes
        (setLegacyField message name (.arr l)) getConversation
        ourConversationId := by
  rcases hname with rfl | rfl | rfl | rfl
  · refine migrate_eq_of_components _ _ getConversation ourConversationId
      rfl ?_
    show (migrationActions
          (setLegacyField message "recipients" (JSValue.arr (l ++ [x])))
          getConversation ourConversationId).foldl
        (migrateStep (pendingFor message))
        (zipObjectRepeat (idsOfValue (JSValue.arr (l ++ [x])) getConversation)
          (pendingFor message)) =
      (migrationActions
          (setLegacyField message "recipients" (JSValue.arr l))
          getConversation ourConversationId).foldl
        (migrateStep (pendingFor message))
        (zipObjectRepeat (idsOfValue (JSValue.arr l) getConversation)
          (pendingFor message))
    cases hres : resolveIdentifier getConversation x with
    | none =>
        rw [idsOfValue_arr_append_none l x getConversation hres]
        rfl
    | some c =>
        rw [idsOfValue_arr_append_some l x c getConversation hres,
          zipObjectRepeat_append_dup _ c _
            (mem_ids_of_mem l x c getConversation hx hres)]
        rfl
  · refine migrate_eq_of_components _ _ getConversation ourConversationId
      rfl ?_
    have hact₁ : migrationActions
        (setLegacyField message "sent_to" (JSValue.arr (l ++ [x])))
        getConversation ourConversationId =
      ((getConversationIdsFromErrors message.errors getConversation).map
          (fun conversationId => (SendActionType.Failed, conversationId)))
        ++ ((idsOfValue (JSValue.arr (l ++ [x])) getConversation).map
            (fun conversationId => (SendActionType.Sent, conversationId)))
        ++ ((getConversationIdsFromLegacyAttribute message "delivered_to"
              getConversation).map
            (fun conversationId => (SendActionType.GotDeliveryReceipt,
              conversationId)))
        ++ ((getConversationIdsFromLegacyAttribute message "read_by"
              getConversation).map
            (fun conversationId => (SendActionType.GotReadReceipt,
              conversationId)))
        ++ [((if message.sent.truthy then SendActionType.Sent
              else SendActionType.Failed), ourConversationId)] := rfl
    have hact₂ : migrationActions
        (setLegacyField message "sent_to" (JSValue.arr l))
        getConversation ourConversationId =
      ((getConversationIdsFromErrors message.errors getConversation).map
          (fun conversationId => (SendActionType.Failed, conversationId)))
        ++ ((idsOfValue (JSValue.arr l) getConversation).map
            (fun conversationId => (SendActionType.Sent, conversationId)))
        ++ ((getConversationIdsFromLegacyAttribute message "delivered_to"
              getConversation).map
            (fun conversationId => (SendActionType.GotDeliveryReceipt,
              conversationId)))
        ++ ((getConversationIdsFromLegacyAttribute message "read_by"
              getConversation).map
            (fun conversationId => (SendActionType.GotReadReceipt,
              conversationId)))
        ++ [((if message.sent.truthy then SendActionType.Sent
              else SendActionType.Failed), ourConversationId)] := rfl
    rw [hact₁, hact₂]
    cases hres : resolveIdentifier getConversation x with
    | none =>
        rw [idsOfValue_arr_append_none l x getConversation hres]
        rfl
    | some c =>
        rw [idsOfValue_arr_append_some l x c getConversation hres,
          List.map_append]
        exact foldl_five_dup₂ _ _ _ _ _ _ _ SendActionType.Sent c
          (List.mem_map.mpr
            ⟨c, mem_ids_of_mem l x c getConversation hx hres, rfl⟩)
  · refine migrate_eq_of_components _ _ getConversation ourConversationId
      rfl ?_
    have hact₁ : migrationActions
        (setLegacyField message "delivered_to" (JSValue.arr (l ++ [x])))
        getConversation ourConversationId =
      ((getConversationIdsFromErrors message.errors getConversation).map
          (fun conversationId => (SendActionType.Failed, conversationId)))
        ++ ((getConversationIdsFromLegacyAttribute message "sent_to"
              getConversation).map
            (fun conversationId => (SendActionType.Sent, conversationId)))
        ++ ((idsOfValue (JSValue.arr (l ++ [x])) getConversation).map
            (fun conversationId => (SendActionType.GotDeliveryReceipt,
              conversationId)))
        ++ ((getConversationIdsFromLegacyAttribute message "read_by"
              getConversation).map
            (fun conversationId => (SendActionType.GotReadReceipt,
              conversationId)))
        ++ [((if message.sent.truthy then SendActionType.Sent
              else SendActionType.Failed), ourConversationId)] := rfl
    have hact₂ : migrationActions
        (setLegacyField message "delivered_to" (JSValue.arr l))
        getConversation ourConversationId =
      ((getConversationIdsFromErrors message.errors getConversation).map
          (fun conversationId => (SendActionType.Failed, conversationId)))
        ++ ((getConversationIdsFromLegacyAttribute message "sent_to"
              getConversation).map
            (fun conversationId => (SendActionType.Sent, conversationId)))
        ++ ((idsOfValue (JSValue.arr l) getConversation).map
            (fun conversationId => (SendActionType.GotDeliveryReceipt,
              conversationId)))
        ++ ((getConversationIdsFromLegacyAttribute message "read_by"
              getConversation).map
            (fun conversationId => (SendActionType.GotReadReceipt,
              conversationId)))
        ++ [((if message.sent.truthy then SendActionType.Sent
              else SendActionType.Failed), ourConversationId)] := rfl
    rw [hact₁, hact₂]
    cases hres : resolveIdentifier getConversation x with
    | none =>
        rw [idsOfValue_arr_append_none l x getConversation hres]
        rfl
    | some c =>
        rw [idsOfValue_arr_append_some l x c getConversation hres,
          List.map_append]
        exact foldl_five_dup₃ _ _ _ _ _ _ _ SendActionType.GotDeliveryReceipt c
          (List.mem_map.mpr
            ⟨c, mem_ids_of_mem l x c getConversation hx hres, rfl⟩)
  · refine migrate_eq_of_components _ _ getConversation ourConversationId
      rfl ?_
    have hact₁ : migrationActions
        (setLegacyField message "read_by" (JSValue.arr (l ++ [x])))
        getConversation ourConversationId =
      ((getConversationIdsFromErrors message.errors getConversation).map
          (fun conversationId => (SendActionType.Failed, conversationId)))
        ++ ((getConversationIdsFromLegacyAttribute message "sent_to"
              getConversation).map
            (fun conversationId => (SendActionType.Sent, conversationId)))
        ++ ((getConversationIdsFromLegacyAttribute message "delivered_to"
              getConversation).map
            (fun conversationId => (SendActionType.GotDeliveryReceipt,
              conversationId)))
        ++ ((idsOfValue (JSValue.arr (l ++ [x])) getConversation).map
            (fun conversationId => (SendActionType.GotReadReceipt,
              conversationId)))
        ++ [((if message.sent.truthy then SendActionType.Sent
              else SendActionType.Failed), ourConversationId)] := rfl
    have hact₂ : migrationActions
        (setLegacyField message "read_by" (JSValue.arr l))
        getConversation ourConversationId =
      ((getConversationIdsFromErrors message.errors getConversation).map
          (fun conversationId => (SendActionType.Failed, conversationId)))
        ++ ((getConversationIdsFromLegacyAttribute message "sent_to"
              getConversation).map
            (fun conversationId => (SendActionType.Sent, conversationId)))
        ++ ((getConversationIdsFromLegacyAttribute message "delivered_to"
              getConversation).map
            (fun conversationId => (SendActionType.GotDeliveryReceipt,
              conversationId)))
        ++ ((idsOfValue (JSValue.arr l) getConversation).map
            (fun conversationId => (SendActionType.GotReadReceipt,
              conversationId)))
        ++ [((if message.sent.truthy then SendActionType.Sent
              else SendActionType.Failed), ourConversationId)] := rfl
    rw [hact₁, hact₂]
    cases hres : resolveIdentifier getConversation x with
    | none =>
        rw [idsOfValue_arr_append_none l x getConversation hres]
        rfl
    | some c =>
        rw [idsOfValue_arr_append_some l x c getConversation hres,
          List.map_append]
        exact foldl_five_dup₄ _ _ _ _ _ _ _ SendActionType.GotReadReceipt c
          (List.mem_map.mpr
            ⟨c, mem_ids_of_mem l x c getConversation hx hres, rfl⟩)

theorem migrate_keys_union_witness :
    migrateLegacySendAttributes testMessage testGetConversation "ME" =
        some testResult ∧
      ("A" ∈ testResult.map Prod.fst ↔
        "A" ∈ getConversationIdsFromLegacyAttribute testMessage "recipients"
            testGetConversation
        ∨ "A" ∈ getConversationIdsFromErrors testMessage.errors
            testGetConversation
        ∨ "A" ∈ getConversationIdsFromLegacyAttribute testMessage "sent_to"
            testGetConversation
        ∨ "A" ∈ getConversationIdsFromLegacyAttribute testMessage
            "delivered_to" testGetConversation
        ∨ "A" ∈ getConversationIdsFromLegacyAttribute testMessage "read_by"
            testGetConversation
        ∨ "A" = "ME") :=
  ⟨by decide,
    migrate_keys_union testMessage testGetConversation "ME" testResult
      (by decide) "A"⟩

theorem migrate_error_superseded_by_sent_witness :
    (migrateLegacySendAttributes testMessage testGetConversation "ME" =
        some testResult ∧
      "A" ∈ getConversationIdsFromErrors testMessage.errors
          testGetConversation ∧
      "A" ∈ getConversationIdsFromLegacyAttribute testMessage "sent_to"
          testGetConversation ∧
      "A" ∉ getConversationIdsFromLegacyAttribute testMessage "delivered_to"
          testGetConversation ∧
      "A" ∉ getConversationIdsFromLegacyAttribute testMessage "read_by"
          testGetConversation ∧
      "A" ≠ "ME") ∧
      (∃ s, getOwn testResult "A" = some s ∧ s.status = SendStatus.Sent) :=
  ⟨⟨by decide, by decide, by decide, by decide, by decide, by decide⟩,
    migrate_error_superseded_by_sent testMessage testGetConversation "ME"
      testResult "A" (by decide) (by decide) (by decide) (by decide)
      (by decide) (by decide)⟩

theorem migrate_self_event_definite_witness :
    migrateLegacySendAttributes testMessageEmpty testGetConversation "ME" =
        some [("ME", (⟨.Failed, some 100⟩ : SendState))] ∧
      ((∃ s, getOwn [("ME", (⟨.Failed, some 100⟩ : SendState))] "ME" =
          some s) ∧
        ((getConversationIdsFromLegacyAttribute testMessageEmpty "recipients"
              testGetConversation = [] ∧
          getConversationIdsFromErrors testMessageEmpty.errors
              testGetConversation = [] ∧
          getConversationIdsFromLegacyAttribute testMessageEmpty "sent_to"
              testGetConversation = [] ∧
          getConversationIdsFromLegacyAttribute testMessageEmpty
              "delivered_to" testGetConversation = [] ∧
          getConversationIdsFromLegacyAttribute testMessageEmpty "read_by"
              testGetConversation = []) →
          [("ME", (⟨.Failed, some 100⟩ : SendState))] =
            [("ME", (⟨.Failed, some 100⟩ : SendState))])) :=
  ⟨by decide,
    migrate_self_event_definite testMessageEmpty testGetConversation "ME"
      [("ME", (⟨.Failed, some 100⟩ : SendState))] (by decide)⟩

theorem migrate_malformed_fields_witness :
    (∀ xs, JSValue.str "oops" ≠ JSValue.arr xs) ∧
      (idsOfValue (JSValue.str "oops") testGetConversation = [] ∧
        migrateLegacySendAttributes (normalizeMessage testMessage)
            testGetConversation "ME" =
          migrateLegacySendAttributes testMessage testGetConversation
            "ME") :=
  ⟨fun xs h => JSValue.noConfusion h,
    migrate_malformed_fields testMessage testGetConversation "ME"
      (JSValue.str "oops") (fun xs h => JSValue.noConfusion h)⟩

theorem migrate_entries_updatedAt_witness :
    (migrateLegacySendAttributes testMessage testGetConversation "ME" =
        some testResult ∧
      getOwn testResult "A" = some ⟨.Sent, some 100⟩) ∧
      ((⟨.Sent, some 100⟩ : SendState).updatedAt =
        some testMessage.sent_at) :=
  ⟨⟨by decide, by decide⟩,
    migrate_entries_updatedAt testMessage testGetConversation "ME"
      testResult (by decide) "A" ⟨.Sent, some 100⟩ (by decide)⟩

theorem migrate_keys_nodup_status_max_witness :
    migrateLegacySendAttributes testMessage testGetConversation "ME" =
        some testResult ∧
      ((testResult.map Prod.fst).Nodup ∧
        (stateAt (pendingFor testMessage) testResult "A").status =
          ((eventsFor "A"
                (migrationActions testMessage testGetConversation "ME")).map
              SendActionType.impliedStatus).foldl
            maxStatus SendStatus.Pending) :=
  ⟨by decide,
    migrate_keys_nodup_status_max testMessage testGetConversation "ME"
      testResult "A" (by decide)⟩

theorem migrate_duplicate_identifier_noop_witness :
    (("sent_to" = "recipients" ∨ "sent_to" = "sent_to" ∨
        "sent_to" = "delivered_to" ∨ "sent_to" = "read_by") ∧
      JSValue.str "alice" ∈ [JSValue.str "alice"]) ∧
      migrateLegacySendAttributes
          (setLegacyField testMessage "sent_to"
            (.arr ([JSValue.str "alice"] ++ [JSValue.str "alice"])))
          testGetConversation "ME" =
        migrateLegacySendAttributes
          (setLegacyField testMessage "sent_to"
            (.arr [JSValue.str "alice"]))
          testGetConversation "ME" :=
  ⟨⟨Or.inr (Or.inl rfl), List.mem_singleton.mpr rfl⟩,
    migrate_duplicate_identifier_noop testMessage testGetConversation "ME"
      "sent_to" [JSValue.str "alice"] (JSValue.str "alice")
      (Or.inr (Or.inl rfl)) (List.mem_singleton.mpr rfl)⟩

end SignalSendState

